import Mathlib

/-!
Shallow embedding of src/pyfixest/FormulaParser.py and proofs about it.

Python strings become Lean String, Python lists become Lean List, the
unpack dictionary becomes a structure with one optional field per possible
key, and every raise site becomes a constructor of an error type carried
through Except.  Splitting and joining are re-implemented by structural
recursion on the character list so that closed evaluations reduce inside
the kernel.
-/

namespace FormulaParser

/-- The five switch kinds recognised by the source's regular expressions. -/
inductive SwKind
  | sw | sw0 | csw | csw0 | i
deriving DecidableEq

/-- Every raise site of FormulaParser.py, named after its message / class:
  ivUnderdetermined / ivOverdetermined : the two ValueError raises of the
    IV determinacy check in the constructor;
  duplicateKey : DuplicateKeyError from the duplicate-key check;
  invalidFormulaSyntax : Exception "Not a valid formula provided." at the
    end of the packing routine;
  variableNotFound : ValueError raised by list.index when the endogenous
    token is absent from the covariate list;
  tupleUnpackMismatch : ValueError from "a, b = s.split(...)" when the
    split does not yield exactly two parts;
  unboundLocalNameError : the NameError the constructor runs into when the
    segment count is outside 1..3 and the locals are never assigned;
  indexError : IndexError from indexing [-1] on an empty list. -/
inductive PError
  | ivUnderdetermined
  | ivOverdetermined
  | duplicateKey
  | invalidFormulaSyntax
  | variableNotFound
  | tupleUnpackMismatch
  | unboundLocalNameError
  | indexError
deriving DecidableEq

/-- Python "sep.join(l)" for the separator "+". -/
def joinPlus : List String → String
  | [] => ""
  | [a] => a
  | a :: b :: rest => a ++ "+" ++ joinPlus (b :: rest)

/-- Python "sep.join(l)" for the separator ":". -/
def joinColon : List String → String
  | [] => ""
  | [a] => a
  | a :: b :: rest => a ++ ":" ++ joinColon (b :: rest)

/-- Helper for splitOnChar: accumulates the current piece (reversed). -/
def splitCharsAux (sep : Char) : List Char → List Char → List String
  | [], acc => [⟨acc.reverse⟩]
  | c :: rest, acc =>
      if c = sep then ⟨acc.reverse⟩ :: splitCharsAux sep rest []
      else splitCharsAux sep rest (c :: acc)

/-- Python s.split(sep) for a single-character separator: always returns a
nonempty list, and splitting the empty string yields [""].  All separators
used by the source ("|", "~", "+", ",", "=") are single characters. -/
def splitOnChar (sep : Char) (s : String) : List String :=
  splitCharsAux sep s.data []

/-- Python "sep in s" for a single-character separator. -/
def containsChar (s : String) (c : Char) : Bool :=
  s.data.contains c

/-- Python "".join(fml.split()): removes every whitespace character. -/
def stripWs (s : String) : String :=
  ⟨s.data.filter (fun c => !c.isWhitespace)⟩

/-- The capture group of the non-greedy regex "kw\\((.*?)\\)": the characters
up to the first closing parenthesis, or none when no ')' follows. -/
def captureArgs : List Char → Option (List Char)
  | [] => none
  | c :: rest =>
      if c = ')' then some []
      else (captureArgs rest).map (fun l => c :: l)

/-- First match of the pattern kw ++ "(" in the character list, returning
the capture of the non-greedy group (re.findall(..)[0] of the source). -/
def findAfter (pat : List Char) : List Char → Option (List Char)
  | [] => none
  | c :: rest =>
      if (c :: rest).take (pat.length + 1) = pat ++ ['('] then
        captureArgs ((c :: rest).drop (pat.length + 1))
      else findAfter pat rest

/-- re.findall(r"kw\\((.*?)\\)", x) restricted to its first match, which is
all the source ever reads. -/
def findMatch (kw : String) (x : String) : Option String :=
  (findAfter kw.data x.data).map (fun cs => ⟨cs⟩)

/-- Result of _find_sw: either the original token (no switch) or the
comma-split argument list together with the switch kind. -/
inductive FindSw
  | noSw (orig : String)
  | found (args : List String) (kind : SwKind)
deriving DecidableEq

/-- _find_sw from the source: the sw/csw and sw0/csw0 disambiguation keeps
the csw-variants when both patterns match. -/
def find_sw (x : String) : FindSw :=
  let sw_match := findMatch "sw" x
  let csw_match := findMatch "csw" x
  let sw0_match := findMatch "sw0" x
  let csw0_match := findMatch "csw0" x
  let i_match := findMatch "i" x
  match sw_match with
  | some s =>
      match csw_match with
      | some c => .found (splitOnChar ',' c) .csw
      | none => .found (splitOnChar ',' s) .sw
  | none =>
      match sw0_match with
      | some s0 =>
          match csw0_match with
          | some c0 => .found (splitOnChar ',' c0) .csw0
          | none => .found (splitOnChar ',' s0) .sw0
      | none =>
          match i_match with
          | some im => .found (splitOnChar ',' im) .i
          | none => .noSw x

/-- The dictionary built by _unpack_fml: the key "constant" always exists,
the five switch keys are optional.  Python dict insertion order is fixed
for every dictionary this code can build: "constant" first, then "i",
then the switch-family key (see dictValues). -/
structure UnpackedFml where
  constant : List String
  sw : Option (List String) := none
  sw0 : Option (List String) := none
  csw : Option (List String) := none
  csw0 : Option (List String) := none
  i : Option (List String) := none
deriving DecidableEq

/-- Whether any of the four switch-family keys is present. -/
def hasSwitchKey (u : UnpackedFml) : Bool :=
  u.sw.isSome || u.csw.isSome || u.sw0.isSome || u.csw0.isSome

/-- _check_duplicate_key from the source.  Note the control flow: when the
key is "i" and "i" is not yet present, the else-branch still scans for any
switch-family key and raises if one exists. -/
def _check_duplicate_key (u : UnpackedFml) (key : SwKind) : Except PError Unit :=
  if key = SwKind.i ∧ u.i.isSome then .error .duplicateKey
  else if hasSwitchKey u then .error .duplicateKey
  else .ok ()

/-- res_s[sw_type] = varlist. -/
def setKey (u : UnpackedFml) (k : SwKind) (v : List String) : UnpackedFml :=
  match k with
  | .sw => { u with sw := some v }
  | .sw0 => { u with sw0 := some v }
  | .csw => { u with csw := some v }
  | .csw0 => { u with csw0 := some v }
  | .i => { u with i := some v }

/-- One iteration of the loop in _unpack_fml.  The "Unsupported switch
type" raise of the source is unreachable because _find_sw only ever
returns the five recognised kinds, which the typed SwKind reflects. -/
def unpackStep (u : UnpackedFml) (tok : String) : Except PError UnpackedFml :=
  match find_sw tok with
  | .noSw v => .ok { u with constant := u.constant ++ [v] }
  | .found args k =>
      match _check_duplicate_key u k with
      | .error e => .error e
      | .ok _ => .ok (setKey u k args)

/-- _unpack_fml from the source. -/
def _unpack_fml (x : String) : Except PError UnpackedFml :=
  (splitOnChar '+' x).foldlM unpackStep { constant := [] }

/-- The cumulative comprehension of the source:
["+".join(v[:i+1]) for i in range(len(v))]. -/
def cumJoins (l : List String) : List String :=
  (List.range l.length).map (fun k => joinPlus (l.take (k + 1)))

/-- res['constant'] after the i-handling block of _pack_to_fml: the
colon-joined i-arguments are appended as one token. -/
def packConstant (u : UnpackedFml) : List String :=
  match u.i with
  | some iargs =>
      if u.constant = [] then [joinColon iargs]
      else u.constant ++ [joinColon iargs]
  | none => u.constant

/-- The variable-part selection chain of _pack_to_fml, in source order:
csw, then csw0, then sw, then sw0. -/
def packVarSel (u : UnpackedFml) : Option (List String × SwKind) :=
  match u.csw with
  | some v => some (v, .csw)
  | none =>
      match u.csw0 with
      | some v => some (v, .csw0)
      | none =>
          match u.sw with
          | some v => some (v, .sw)
          | none =>
              match u.sw0 with
              | some v => some (v, .sw0)
              | none => none

/-- variable_fml of _pack_to_fml: cumulative joins for csw/csw0, the raw
arguments for sw/sw0, and the sentinel "0" prepended for sw0/csw0; empty
when there is no variable part. -/
def variableFml (varArgs : List String) (vtype : Option SwKind) : List String :=
  if varArgs = [] then []
  else
    let vf :=
      if vtype = some SwKind.csw ∨ vtype = some SwKind.csw0 then cumJoins varArgs
      else varArgs
    if vtype = some SwKind.sw0 ∨ vtype = some SwKind.csw0 then "0" :: vf else vf

/-- _pack_to_fml from the source.  Python truthiness of const_fml reduces
to "the joined string is nonempty" because "+".join([]) is "" as well. -/
def _pack_to_fml (u : UnpackedFml) : Except PError (List String) :=
  let vsel := packVarSel u
  let varArgs := (vsel.map Prod.fst).getD []
  let vtype := vsel.map Prod.snd
  let const_fml := joinPlus (packConstant u)
  let vfml := variableFml varArgs vtype
  if vfml ≠ [] then
    if const_fml ≠ "" then
      let fl := (vfml.filter (fun v => v != "0")).map (fun v => const_fml ++ "+" ++ v)
      if vtype = some SwKind.sw0 ∨ vtype = some SwKind.csw0 then .ok (const_fml :: fl)
      else .ok fl
    else .ok vfml
  else
    if const_fml ≠ "" then .ok [const_fml]
    else .error .invalidFormulaSyntax

/-- The ivars block of the constructor (lines 99-113): returns the
reference value, the recorded ivar list, and the new value of the "i" key.
When the last i-argument splits on "=", the reference is the second split
component and the whole last argument is removed from the list. -/
def ivarsStep (il : List String) : Except PError (Option String × List String × List String) :=
  match il.getLast? with
  | none => .error .indexError
  | some last =>
      let isplit := splitOnChar '=' last
      if isplit.length > 1 then
        .ok (some (isplit.getD 1 ""), il.dropLast, il.dropLast)
      else
        .ok (none, il, il)

/-- The attributes the constructor stores. -/
structure Model where
  depvars : List String
  covars : UnpackedFml
  fevars : UnpackedFml
  endogvars : Option String := none
  instruments : Option String := none
  is_iv : Bool := false
  first_stage_covars_list : Option String := none
  covars_first_stage : Option UnpackedFml := none
  depvars_first_stage : Option String := none
  ivars : Option (Option String × List String) := none
  covars_fml : List String
  fevars_fml : List String
  covars_first_stage_fml : Option (List String) := none
deriving DecidableEq

/-- FixestFormulaParser.__init__ from the source, in source order:
whitespace removal, the '|' split, the '~' split of the first segment, the
segment-count chain (any count outside 1..3 leaves the locals unassigned
and the first later read raises NameError), the character-length IV
determinacy check, unpacking, first-stage substitution, the ivars block,
and the packing of the three formula lists. -/
def parse (fml : String) : Except PError Model := do
  let f := stripWs fml
  let fml_split := splitOnChar '|' f
  let firstSeg := fml_split.headD ""
  let (depvarsStr, covarsStr) ←
    match splitOnChar '~' firstSeg with
    | [d, c] => Except.ok (d, c)
    | _ => Except.error PError.tupleUnpackMismatch
  let (fevarsStr, endogInstr) ←
    if fml_split.length = 1 then
      Except.ok ("0", (none : Option (String × String)))
    else if fml_split.length = 2 then
      let seg1 := fml_split.getD 1 ""
      if containsChar seg1 '~' then
        match splitOnChar '~' seg1 with
        | [e, ins] => Except.ok ("0", some (e, ins))
        | _ => Except.error PError.tupleUnpackMismatch
      else Except.ok (seg1, none)
    else if fml_split.length = 3 then
      match splitOnChar '~' (fml_split.getD 2 "") with
      | [e, ins] => Except.ok (fml_split.getD 1 "", some (e, ins))
      | _ => Except.error PError.tupleUnpackMismatch
    else Except.error PError.unboundLocalNameError
  match endogInstr with
  | some (e, ins) =>
      if e.length > ins.length then throw PError.ivUnderdetermined
      else if e.length < ins.length then throw PError.ivOverdetermined
      else pure ()
  | none => pure ()
  let depvars := splitOnChar '+' depvarsStr
  let covars0 ← _unpack_fml covarsStr
  let fevars ← _unpack_fml fevarsStr
  let (isIv, fscl, covarsFs, depvarsFs) ←
    match endogInstr with
    | some (e, ins) =>
        let lst := splitOnChar '+' covarsStr
        match lst.findIdx? (fun t => t = e) with
        | none => Except.error PError.variableNotFound
        | some idx => do
            let s := joinPlus (lst.set idx ins)
            let uf ← _unpack_fml s
            Except.ok (true, some s, some uf, some e)
    | none => Except.ok (false, none, none, none)
  let (covars, ivars) ←
    match covars0.i with
    | some il => do
        let (ref, ivl, newI) ← ivarsStep il
        Except.ok ({ covars0 with i := some newI }, some (ref, ivl))
    | none => Except.ok (covars0, none)
  let covars_fml ← _pack_to_fml covars
  let fevars_fml ← _pack_to_fml fevars
  let covars_first_stage_fml ←
    match covarsFs with
    | some uf => do
        let l ← _pack_to_fml uf
        Except.ok (some l)
    | none => Except.ok none
  Except.ok
    { depvars := depvars
      covars := covars
      fevars := fevars
      endogvars := endogInstr.map Prod.fst
      instruments := endogInstr.map Prod.snd
      is_iv := isIv
      first_stage_covars_list := fscl
      covars_first_stage := covarsFs
      depvars_first_stage := depvarsFs
      ivars := ivars
      covars_fml := covars_fml
      fevars_fml := fevars_fml
      covars_first_stage_fml := covars_first_stage_fml }

/-- The inner nested loop of get_fml_dict: for each depvar, for each
covariate variant, append depvar ~ covar. -/
def fmlPairs (depvars covarsFml : List String) : List String :=
  match depvars with
  | [] => []
  | d :: ds => covarsFml.map (fun c => d ++ "~" ++ c) ++ fmlPairs ds covarsFml

/-- get_fml_dict from the source.  The Python dict keyed by the fevar
strings is modelled as the association list in insertion order; iterating
over None (iv = true without a first stage) is the TypeError case,
modelled as none. -/
def get_fml_dict (m : Model) (iv : Bool) : Option (List (String × List String)) :=
  match (if iv then m.covars_first_stage_fml else some m.covars_fml) with
  | none => none
  | some cf => some (m.fevars_fml.map (fun fe => (fe, fmlPairs m.depvars cf)))

/-- A Python value that is either a string or a list of such values: the
argument shape of _flatten_list. -/
inductive NList
  | str (s : String)
  | lst (l : List NList)

/-- _flatten_list from the source, recursing into list elements. -/
def NList.flatten : NList → List String
  | .str s => [s]
  | .lst [] => []
  | .lst (x :: xs) => x.flatten ++ (NList.lst xs).flatten

/-- _flatten_list applied to a Python list. -/
def _flatten_list (l : List NList) : List String :=
  NList.flatten (NList.lst l)

/-- list(d.values()) for a dictionary built by _unpack_fml (and possibly
updated by the ivars block): insertion order is "constant" first, then
"i", then the switch-family key.  "constant" is created before the loop;
an "i" token arriving after a switch-family key always raises
DuplicateKeyError in _check_duplicate_key, so in every dictionary that
survives unpacking "i" precedes the switch-family key. -/
def dictValues (u : UnpackedFml) : List (List String) :=
  [u.constant]
    ++ (match u.i with | some l => [l] | none => [])
    ++ (match u.sw with | some l => [l] | none => [])
    ++ (match u.csw with | some l => [l] | none => [])
    ++ (match u.sw0 with | some l => [l] | none => [])
    ++ (match u.csw0 with | some l => [l] | none => [])

/-- The dictionary values as the dynamically-typed nested list that
_flatten_list receives. -/
def valuesAsNList (u : UnpackedFml) : List NList :=
  (dictValues u).map (fun l => NList.lst (l.map NList.str))

/-- get_var_dict from the source: every fevar key is mapped to the
flattened depvars followed by the flattened dictionary values of the
(first- or second-stage) covariate structure. -/
def get_var_dict (m : Model) (iv : Bool) : Option (List (String × List String)) :=
  match (if iv then m.covars_first_stage else some m.covars) with
  | none => none
  | some cv =>
      some (m.fevars_fml.map (fun fe =>
        (fe, _flatten_list (m.depvars.map NList.str) ++ _flatten_list (valuesAsNList cv))))

/-! Helper lemmas. -/

theorem joinPlus_cons_cons (a b : String) (l : List String) :
    joinPlus (a :: b :: l) = a ++ "+" ++ joinPlus (b :: l) := rfl

theorem plus_append_ne (u v s : String) (hs : '+' ∉ s.data) : u ++ "+" ++ v ≠ s := by
  intro h
  apply hs
  rw [← h]
  show '+' ∈ (u.data ++ ['+']) ++ v.data
  simp

theorem joinPlus_pair_ne (a b : String) (l : List String) (s : String)
    (hs : '+' ∉ s.data) : joinPlus (a :: b :: l) ≠ s := by
  rw [joinPlus_cons_cons]
  exact plus_append_ne _ _ _ hs

theorem joinPlus_concat (cs : List String) (x : String) (h : cs ≠ []) :
    joinPlus (cs ++ [x]) = joinPlus cs ++ "+" ++ x := by
  induction cs with
  | nil => exact absurd rfl h
  | cons a rest ih =>
    cases rest with
    | nil => rfl
    | cons b rest2 =>
      have hrw := ih (by simp)
      show a ++ "+" ++ joinPlus ((b :: rest2) ++ [x]) = _
      rw [hrw, joinPlus_cons_cons]
      simp [String.append_assoc]

theorem cumJoins_length (l : List String) : (cumJoins l).length = l.length := by
  simp [cumJoins]

theorem cumJoins_ne_nil (l : List String) (h : l ≠ []) : cumJoins l ≠ [] := by
  intro hc
  apply h
  have := cumJoins_length l
  rw [hc] at this
  exact List.length_eq_zero.mp this.symm

theorem cumJoins_getD (l : List String) (k : Nat) (hk : k < l.length) :
    (cumJoins l).getD k "" = joinPlus (l.take (k + 1)) := by
  simp [cumJoins, List.getD_eq_getElem?_getD, List.getElem?_map, List.getElem?_range, hk]

theorem cumJoins_ne_zero (l : List String) (h0 : "0" ∉ l) :
    ∀ v ∈ cumJoins l, v ≠ "0" := by
  intro v hv
  simp only [cumJoins, List.mem_map, List.mem_range] at hv
  obtain ⟨k, hk, rfl⟩ := hv
  cases l with
  | nil => exact absurd hk (by simp)
  | cons a rest =>
    cases k with
    | zero =>
      show joinPlus [a] ≠ "0"
      intro ha
      exact h0 (by simp_all [joinPlus])
    | succ k2 =>
      show joinPlus (a :: rest.take (k2 + 1)) ≠ "0"
      cases rest with
      | nil => exact absurd hk (by simp)
      | cons b rest2 =>
        show joinPlus (a :: b :: rest2.take k2) ≠ "0"
        exact joinPlus_pair_ne a b _ "0" (by decide)

theorem filter_ne_zero_eq_self (l : List String) (h : ∀ v ∈ l, v ≠ "0") :
    l.filter (fun v => v != "0") = l := by
  apply List.filter_eq_self.mpr
  intro a ha
  simpa using h a ha

theorem pack_csw (cs as : List String) (hne : as ≠ []) (h0 : "0" ∉ as) :
    _pack_to_fml { constant := cs, csw := some as } =
      .ok (if joinPlus cs = "" then cumJoins as
           else (cumJoins as).map (fun v => joinPlus cs ++ "+" ++ v)) := by
  have hfilter := filter_ne_zero_eq_self (cumJoins as) (cumJoins_ne_zero as h0)
  by_cases hc : joinPlus cs = "" <;>
    simp [_pack_to_fml, packVarSel, packConstant, variableFml, hne, hfilter, hc,
      cumJoins_ne_nil as hne]

theorem pack_csw0 (cs as : List String) (hne : as ≠ []) (h0 : "0" ∉ as) :
    _pack_to_fml { constant := cs, csw0 := some as } =
      .ok (if joinPlus cs = "" then "0" :: cumJoins as
           else joinPlus cs :: (cumJoins as).map (fun v => joinPlus cs ++ "+" ++ v)) := by
  have hfilter := filter_ne_zero_eq_self (cumJoins as) (cumJoins_ne_zero as h0)
  by_cases hc : joinPlus cs = "" <;>
    simp [_pack_to_fml, packVarSel, packConstant, variableFml, hne, hfilter, hc,
      cumJoins_ne_nil as hne]

theorem pack_sw0 (cs as : List String) (hne : as ≠ []) (h0 : "0" ∉ as) :
    _pack_to_fml { constant := cs, sw0 := some as } =
      .ok (if joinPlus cs = "" then "0" :: as
           else joinPlus cs :: as.map (fun v => joinPlus cs ++ "+" ++ v)) := by
  have hfilter := filter_ne_zero_eq_self as (fun v hv => by rintro rfl; exact h0 hv)
  by_cases hc : joinPlus cs = "" <;>
    simp [_pack_to_fml, packVarSel, packConstant, variableFml, hne, hfilter, hc]

theorem fmlPairs_eq (ds cf : List String) :
    fmlPairs ds cf = ds.flatMap (fun dv => cf.map (fun c => dv ++ "~" ++ c)) := by
  induction ds with
  | nil => rfl
  | cons d ds2 ih => simp [fmlPairs, ih]

theorem fmlPairs_length (ds cf : List String) :
    (fmlPairs ds cf).length = ds.length * cf.length := by
  induction ds with
  | nil => simp [fmlPairs]
  | cons d ds2 ih => simp [fmlPairs, ih, Nat.succ_mul, Nat.add_comm]

theorem flatten_map_str (l : List String) : _flatten_list (l.map NList.str) = l := by
  induction l with
  | nil => simp [_flatten_list, NList.flatten]
  | cons a l2 ih =>
    simp only [_flatten_list, List.map_cons] at ih ⊢
    rw [NList.flatten]
    simp [NList.flatten, ih]

theorem flatten_values (ls : List (List String)) :
    _flatten_list (ls.map (fun l => NList.lst (l.map NList.str))) = ls.flatten := by
  induction ls with
  | nil => simp [_flatten_list, NList.flatten]
  | cons l ls2 ih =>
    have hl := flatten_map_str l
    simp only [_flatten_list, List.map_cons] at ih hl ⊢
    rw [NList.flatten]
    simp [ih, hl]

/-- A concrete parsed model used to instantiate the dictionary theorems. -/
def m0 : Model :=
  { depvars := ["Y"]
    covars := { constant := ["X1", "X2"] }
    fevars := { constant := ["F"] }
    covars_fml := ["X1+X2"]
    fevars_fml := ["F"] }

/-! Claim theorems. -/

/-- Claim C1: the claim says the IV determinacy check compares the number
of plus-delimited tokens on the two sides, so that endogvars "X2" with
instruments "Z" (one token each) succeeds.  The source instead compares
raw character lengths: parsing "Y~X1+X2|X2~Z" raises the underdetermined
error even though both sides name exactly one variable, contradicting the
code's own error message ("provide as many instruments as endogenous
variables"). -/
theorem iv_determinacy_compares_char_lengths :
    parse "Y~X1+X2|X2~Z" = .error .ivUnderdetermined ∧
    (splitOnChar '+' "X2").length = (splitOnChar '+' "Z").length :=
  ⟨rfl, rfl⟩

/-- Claim C2: for a group whose switch family is csw or csw0 with ordered
arguments as, the expander emits exactly as.length non-sentinel variants,
the k-th being the first k+1 arguments joined by "+" (combined with the
constant part when it is nonempty); in particular csw(a,b,c) on constant x
yields exactly ["x+a","x+a+b","x+a+b+c"].  The arguments are variable
names, so none of them is the sentinel literal "0". -/
theorem csw_cumulative_variants (cs as : List String) (hne : as ≠ []) (h0 : "0" ∉ as) :
    _pack_to_fml { constant := cs, csw := some as } =
      .ok (if joinPlus cs = "" then cumJoins as
           else (cumJoins as).map (fun v => joinPlus cs ++ "+" ++ v)) ∧
    _pack_to_fml { constant := cs, csw0 := some as } =
      .ok (if joinPlus cs = "" then "0" :: cumJoins as
           else joinPlus cs :: (cumJoins as).map (fun v => joinPlus cs ++ "+" ++ v)) ∧
    (cumJoins as).length = as.length ∧
    (∀ k, k < as.length → (cumJoins as).getD k "" = joinPlus (as.take (k + 1))) ∧
    _pack_to_fml { constant := ["x"], csw := some ["a", "b", "c"] } =
      .ok ["x+a", "x+a+b", "x+a+b+c"] :=
  ⟨pack_csw cs as hne h0, pack_csw0 cs as hne h0, cumJoins_length as,
   fun k hk => cumJoins_getD as k hk, rfl⟩

theorem csw_cumulative_variants_witness :
    ((["a", "b", "c"] : List String) ≠ [] ∧ "0" ∉ (["a", "b", "c"] : List String)) ∧
    _pack_to_fml { constant := ["x"], csw := some ["a", "b", "c"] } =
      .ok (if joinPlus ["x"] = "" then cumJoins ["a", "b", "c"]
           else (cumJoins ["a", "b", "c"]).map (fun v => joinPlus ["x"] ++ "+" ++ v)) :=
  ⟨⟨by decide, by decide⟩,
   (csw_cumulative_variants ["x"] ["a", "b", "c"] (by decide) (by decide)).1⟩

/-- Claim C3: for a group whose switch family is sw0 or csw0, the expander
prepends one sentinel variant before the argument-derived variants; with a
nonempty constant part the sentinel is the constant part alone (never
constant+0), with an empty constant part it is the string "0"; e.g.
csw0(a,b) on constant x yields ["x","x+a","x+a+b"]. -/
theorem sw0_csw0_sentinel_variants (cs as : List String) (hne : as ≠ []) (h0 : "0" ∉ as) :
    _pack_to_fml { constant := cs, sw0 := some as } =
      .ok (if joinPlus cs = "" then "0" :: as
           else joinPlus cs :: as.map (fun v => joinPlus cs ++ "+" ++ v)) ∧
    _pack_to_fml { constant := cs, csw0 := some as } =
      .ok (if joinPlus cs = "" then "0" :: cumJoins as
           else joinPlus cs :: (cumJoins as).map (fun v => joinPlus cs ++ "+" ++ v)) ∧
    _pack_to_fml { constant := ["x"], csw0 := some ["a", "b"] } =
      .ok ["x", "x+a", "x+a+b"] :=
  ⟨pack_sw0 cs as hne h0, pack_csw0 cs as hne h0, rfl⟩

theorem sw0_csw0_sentinel_variants_witness :
    ((["a", "b"] : List String) ≠ [] ∧ "0" ∉ (["a", "b"] : List String)) ∧
    _pack_to_fml { constant := ["x"], sw0 := some ["a", "b"] } =
      .ok (if joinPlus ["x"] = "" then "0" :: ["a", "b"]
           else joinPlus ["x"] :: (["a", "b"] : List String).map
             (fun v => joinPlus ["x"] ++ "+" ++ v)) :=
  ⟨⟨by decide, by decide⟩,
   (sw0_csw0_sentinel_variants ["x"] ["a", "b"] (by decide) (by decide)).1⟩

/-- Claim C4: the claim says a raw formula whose '|'-split yields a count
other than 1, 2 or 3 fails with InvalidFormulaSyntax.  The source instead
leaves the locals unassigned and crashes with a NameError, an unnamed
failure distinct from the error the claim names: "Y~X|a|b|c" has four
segments. -/
theorem extra_segments_unbound_local :
    parse "Y~X|a|b|c" = .error .unboundLocalNameError ∧
    PError.unboundLocalNameError ≠ PError.invalidFormulaSyntax :=
  ⟨rfl, by decide⟩

/-- Claim C5, counterexample: the claim says that when the last i-argument
contains "=", the argument-name before the "=" is kept in the i sequence.
Parsing "Y~i(X1,X2=a)" stores i = ["X1"]: the argument name "X2" is
dropped together with the reference value, and the emitted variant is
"X1", not "X1:X2". -/
theorem i_ref_keeps_name_counterexample :
    (parse "Y~i(X1,X2=a)").map (fun m => (m.covars.i, m.ivars, m.covars_fml)) =
      .ok (some ["X1"], some (some "a", ["X1"]), ["X1"]) ∧
    (some ["X1"] : Option (List String)) ≠ some ["X1", "X2"] :=
  ⟨rfl, by decide⟩

/-- Claim C5, amended: the i-argument names are emitted as one colon-joined
token appended after the constant names; when the last argument splits on
"=" the second split component is recorded as the reference and the entire
last argument (its argument-name included) is removed from the i sequence;
with no "=" the reference is none and the sequence is unchanged. -/
theorem i_group_colon_token_and_ref (cs pre : List String) (last nm ref : String) :
    (cs ≠ [] → _pack_to_fml { constant := cs, i := some (pre ++ [last]) } =
        .ok [joinPlus cs ++ "+" ++ joinColon (pre ++ [last])]) ∧
    (joinColon (pre ++ [last]) ≠ "" →
      _pack_to_fml { constant := [], i := some (pre ++ [last]) } =
        .ok [joinColon (pre ++ [last])]) ∧
    (splitOnChar '=' last = [nm, ref] →
      ivarsStep (pre ++ [last]) = .ok (some ref, pre, pre)) ∧
    (splitOnChar '=' last = [last] →
      ivarsStep (pre ++ [last]) = .ok (none, pre ++ [last], pre ++ [last])) := by
  refine ⟨fun h => ?_, fun h => ?_, fun h => ?_, fun h => ?_⟩
  · have hj : joinPlus (cs ++ [joinColon (pre ++ [last])]) =
        joinPlus cs ++ "+" ++ joinColon (pre ++ [last]) := joinPlus_concat cs _ h
    have hne : joinPlus cs ++ "+" ++ joinColon (pre ++ [last]) ≠ "" :=
      plus_append_ne _ _ _ (by decide)
    simp [_pack_to_fml, packVarSel, packConstant, variableFml, h, hj, hne]
  · simp [_pack_to_fml, packVarSel, packConstant, variableFml, h, joinPlus]
  · simp [ivarsStep, List.getLast?_concat, h, List.dropLast_concat]
  · simp [ivarsStep, List.getLast?_concat, h, List.dropLast_concat]

theorem i_group_colon_token_and_ref_witness :
    _pack_to_fml { constant := ["x"], i := some (["X1"] ++ ["X2=a"]) } =
      .ok [joinPlus ["x"] ++ "+" ++ joinColon (["X1"] ++ ["X2=a"])] ∧
    ivarsStep (["X1"] ++ ["X2=a"]) = .ok (some "a", ["X1"], ["X1"]) ∧
    ivarsStep (["X1"] ++ ["X2"]) = .ok (none, ["X1"] ++ ["X2"], ["X1"] ++ ["X2"]) :=
  ⟨(i_group_colon_token_and_ref ["x"] ["X1"] "X2=a" "X2" "a").1 (by decide),
   (i_group_colon_token_and_ref ["x"] ["X1"] "X2=a" "X2" "a").2.2.1 rfl,
   (i_group_colon_token_and_ref ["x"] ["X1"] "X2" "" "").2.2.2 rfl⟩

/-- Claim C6: the claim says DuplicateSwitchKeyError is raised exactly when
a group has two or more switch-family tokens or two or more i groups.  The
source also raises it for one switch token followed by one i group
("sw(b,c)+i(d,e)"), although the reversed order is accepted, contradicting
the docstring of _check_duplicate_key ("Checks if a key already exists in
a dictionary. If it does, raises ... Otherwise, does nothing").  The last
conjunct records the true positive direction on the claim's example. -/
theorem duplicate_key_switch_then_i :
    _unpack_fml "sw(b,c)+i(d,e)" = .error .duplicateKey ∧
    _unpack_fml "i(d,e)+sw(b,c)" =
      .ok { constant := [], sw := some ["b", "c"], i := some ["d", "e"] } ∧
    _unpack_fml "a+sw(b,c)+csw(d,e)" = .error .duplicateKey :=
  ⟨rfl, rfl, rfl⟩

/-- Claim C7: the claim's scenario "Y~X1+X2|X3~X2~Z" never reaches the
first-stage substitution: the second '|'-segment "X3~X2~Z" splits on '~'
into three parts and the two-name unpacking raises ValueError; in the
three-segment spelling "Y~X1+X2|X3|X2~Z" the character-length determinacy
check raises the underdetermined error first.  With an instrument of equal
character length the substitution works as the claim describes, producing
first-stage covariates "X1+ZZ". -/
theorem first_stage_scenario_blocked :
    parse "Y~X1+X2|X3~X2~Z" = .error .tupleUnpackMismatch ∧
    parse "Y~X1+X2|X3|X2~Z" = .error .ivUnderdetermined ∧
    (parse "Y~X1+X2|X3|X2~ZZ").map (fun m =>
        (m.first_stage_covars_list, m.covars_first_stage_fml)) =
      .ok (some "X1+ZZ", some ["X1+ZZ"]) :=
  ⟨rfl, rfl, rfl⟩

/-- Claim C8: a group with no switch family and no interaction group
expands to exactly one variant, the plus-join of its constant tokens in
original order, and fails with the "Not a valid formula provided."
exception (the spec's InvalidFormulaSyntax) when the constant part is
empty. -/
theorem no_switch_single_variant (cs : List String) :
    _pack_to_fml { constant := cs } =
      if joinPlus cs = "" then .error .invalidFormulaSyntax
      else .ok [joinPlus cs] := by
  by_cases hc : joinPlus cs = "" <;>
    simp [_pack_to_fml, packVarSel, packConstant, variableFml, hc]

/-- Claim C9: every entry of the dictionary built by get_fml_dict maps its
fixed-effect variant to the cross product of depvars and covariate
variants, outer loop over depvars, inner loop over covariate variants, so
its length is the product of the two lengths. -/
theorem fml_dict_cross_product (m : Model) (iv : Bool) (d : List (String × List String))
    (cf : List String)
    (hcf : (if iv then m.covars_first_stage_fml else some m.covars_fml) = some cf)
    (hd : get_fml_dict m iv = some d) :
    ∀ fe res, (fe, res) ∈ d →
      res = m.depvars.flatMap (fun dv => cf.map (fun c => dv ++ "~" ++ c)) ∧
      res.length = m.depvars.length * cf.length := by
  intro fe res hmem
  simp only [get_fml_dict, hcf] at hd
  injection hd with hd
  rw [← hd] at hmem
  simp only [List.mem_map] at hmem
  obtain ⟨fe2, _, heq⟩ := hmem
  have hres : res = fmlPairs m.depvars cf := by
    have h2 := congrArg Prod.snd heq
    simpa using h2.symm
  subst hres
  exact ⟨fmlPairs_eq m.depvars cf, fmlPairs_length m.depvars cf⟩

theorem fml_dict_cross_product_witness :
    (["Y~X1+X2"] : List String) =
        m0.depvars.flatMap (fun dv => (["X1+X2"] : List String).map
          (fun c => dv ++ "~" ++ c)) ∧
    (["Y~X1+X2"] : List String).length =
      m0.depvars.length * (["X1+X2"] : List String).length :=
  fml_dict_cross_product m0 false [("F", ["Y~X1+X2"])] ["X1+X2"] rfl rfl
    "F" ["Y~X1+X2"] (by simp)

/-- Claim C10: every entry of the dictionary built by get_var_dict carries
the same value, the flattened depvars followed by the flattened dictionary
values of the covariate structure, independent of the fixed-effect key. -/
theorem var_dict_key_independent (m : Model) (iv : Bool) (d : List (String × List String))
    (cv : UnpackedFml)
    (hcv : (if iv then m.covars_first_stage else some m.covars) = some cv)
    (hd : get_var_dict m iv = some d) :
    ∀ fe v, (fe, v) ∈ d →
      v = m.depvars ++ (dictValues cv).flatten ∧
      ∀ fe2 v2, (fe2, v2) ∈ d → v2 = v := by
  intro fe v hmem
  simp only [get_var_dict, hcv] at hd
  injection hd with hd
  have hval : ∀ fe3 v3, (fe3, v3) ∈ d → v3 = m.depvars ++ (dictValues cv).flatten := by
    intro fe3 v3 hmem3
    rw [← hd] at hmem3
    simp only [List.mem_map] at hmem3
    obtain ⟨fe4, _, heq⟩ := hmem3
    have h2 := congrArg Prod.snd heq
    simp only at h2
    rw [← h2, flatten_map_str m.depvars]
    have hv := flatten_values (dictValues cv)
    simp only [valuesAsNList]
    rw [hv]
  exact ⟨hval fe v hmem, fun fe2 v2 hmem2 => (hval fe2 v2 hmem2).trans (hval fe v hmem).symm⟩

theorem var_dict_key_independent_witness :
    (["Y", "X1", "X2"] : List String) = m0.depvars ++ (dictValues m0.covars).flatten ∧
    ∀ fe2 v2, (fe2, v2) ∈ [("F", ["Y", "X1", "X2"])] → v2 = ["Y", "X1", "X2"] :=
  var_dict_key_independent m0 false [("F", ["Y", "X1", "X2"])] m0.covars rfl
    (by simp [get_var_dict, m0, _flatten_list, NList.flatten, dictValues, valuesAsNList])
    "F" ["Y", "X1", "X2"] (by simp)

end FormulaParser
